import Mathlib

/-!
Verification development for the Bollinger-Band / Heikin-Ashi trading engine.

The embedding follows the engine used by the backtester:
  indicators.py  (calculate_bollinger_bands, calculate_heikin_ashi,
                  get_ha_candle_color, calculate_ha_body_size_percentage)
  signals.py     (check_bb_touch, generate_signals)
  backtesting.py (Backtester.backtest_single_pair, _calculate_results)

All prices are exact rationals.  Undefined (NaN) indicator cells are
modelled with Option, and a pandas comparison against NaN, which is
always False, is modelled by an Option comparison that is false on none.

The rolling sample standard deviation is an irrational square root, so
it cannot be an executable rational function; the development is
parameterised by a function stdFn : List Rat -> Rat standing for the
sample standard deviation of a full window.  No theorem depends on the
value of stdFn beyond hypotheses stated explicitly (nonnegativity,
which holds for the real standard deviation).  Concrete witnesses use
inputs on which the true standard deviation of every window that the
code compares is 0, so that the instantiation stdZero agrees exactly
with the source on those inputs.
-/

/-- A raw OHLC candle row of the input frame.  The frame index is the
`timestamp` field. -/
structure Candle where
  timestamp : ℤ
  open_ : ℚ
  high : ℚ
  low : ℚ
  close : ℚ
  deriving DecidableEq, Repr

instance : Inhabited Candle := ⟨⟨0, 0, 0, 0, 0⟩⟩

/-- A Heikin-Ashi row: the HA_OPEN, HA_HIGH, HA_LOW, HA_CLOSE columns
added by calculate_heikin_ashi. -/
structure HARow where
  HA_OPEN : ℚ
  HA_HIGH : ℚ
  HA_LOW : ℚ
  HA_CLOSE : ℚ
  deriving DecidableEq, Repr

instance : Inhabited HARow := ⟨⟨0, 0, 0, 0⟩⟩

/-- A Bollinger-band row: the BB_MIDDLE, BB_UPPER, BB_LOWER columns; a
cell is none where pandas leaves NaN (incomplete rolling window, or a
sample standard deviation with fewer than two observations). -/
structure BBRow where
  BB_MIDDLE : Option ℚ
  BB_UPPER : Option ℚ
  BB_LOWER : Option ℚ
  deriving DecidableEq, Repr

instance : Inhabited BBRow := ⟨⟨none, none, none⟩⟩

/-- List lookup with the inhabited default, standing for row access by
position in a frame. -/
def rowGet {α : Type} [Inhabited α] (l : List α) (i : ℕ) : α :=
  l.getD i default

/-- indicators.py line 42: HA_CLOSE = (open + high + low + close) / 4. -/
def haCloseOf (c : Candle) : ℚ :=
  (c.open_ + c.high + c.low + c.close) / 4

/-- indicators.py lines 45-54, one step of the sequential loop: given
the previous (HA_OPEN, HA_CLOSE) pair (none at i = 0), produce the HA
row of candle c.  HA_OPEN is (open + close) / 2 at i = 0 and otherwise
(prev HA_OPEN + prev HA_CLOSE) / 2; HA_HIGH and HA_LOW are the max and
min of the raw high resp. low with HA_OPEN and HA_CLOSE. -/
def haRowOf (prev : Option (ℚ × ℚ)) (c : Candle) : HARow :=
  let hc := haCloseOf c
  let ho := match prev with
    | none => (c.open_ + c.close) / 2
    | some (po, pc) => (po + pc) / 2
  { HA_OPEN := ho
    HA_HIGH := max c.high (max ho hc)
    HA_LOW := min c.low (min ho hc)
    HA_CLOSE := hc }

/-- The sequential loop of indicators.py lines 46-50, carried out as a
fold over the candle list with the previous (HA_OPEN, HA_CLOSE)
accumulator. -/
def haRec (prev : Option (ℚ × ℚ)) : List Candle → List HARow
  | [] => []
  | c :: rest =>
    let r := haRowOf prev c
    r :: haRec (some (r.HA_OPEN, r.HA_CLOSE)) rest

/-- indicators.py lines 29-56: calculate_heikin_ashi.  Returns the HA
rows aligned with the input frame. -/
def calculate_heikin_ashi (df : List Candle) : List HARow :=
  haRec none df

theorem haRec_length (prev : Option (ℚ × ℚ)) (df : List Candle) :
    (haRec prev df).length = df.length := by
  induction df generalizing prev with
  | nil => rfl
  | cons c rest ih => simp [haRec, ih]

theorem calculate_heikin_ashi_length (df : List Candle) :
    (calculate_heikin_ashi df).length = df.length :=
  haRec_length none df

theorem rowGet_cons_zero {α : Type} [Inhabited α] (a : α) (l : List α) :
    rowGet (a :: l) 0 = a := rfl

theorem rowGet_cons_succ {α : Type} [Inhabited α] (a : α) (l : List α) (i : ℕ) :
    rowGet (a :: l) (i + 1) = rowGet l i := rfl

/-- Pointwise form of indicators.py line 42: every HA row closes at the
average of the four raw fields of the aligned candle. -/
theorem haRec_close (prev : Option (ℚ × ℚ)) (df : List Candle) (i : ℕ)
    (h : i < df.length) :
    (rowGet (haRec prev df) i).HA_CLOSE = haCloseOf (rowGet df i) := by
  induction df generalizing prev i with
  | nil => simp at h
  | cons c rest ih =>
    cases i with
    | zero => rfl
    | succ j =>
      simp only [haRec, rowGet_cons_succ]
      exact ih _ _ (by simpa using Nat.lt_of_succ_lt_succ h)

/-- Pointwise form of indicators.py lines 53-54: HA_HIGH and HA_LOW of
every row are the max resp. min of the raw high resp. low with the
HA_OPEN and HA_CLOSE of the same row. -/
theorem haRec_high_low (prev : Option (ℚ × ℚ)) (df : List Candle) (i : ℕ)
    (h : i < df.length) :
    (rowGet (haRec prev df) i).HA_HIGH =
      max (rowGet df i).high
        (max (rowGet (haRec prev df) i).HA_OPEN (rowGet (haRec prev df) i).HA_CLOSE) ∧
    (rowGet (haRec prev df) i).HA_LOW =
      min (rowGet df i).low
        (min (rowGet (haRec prev df) i).HA_OPEN (rowGet (haRec prev df) i).HA_CLOSE) := by
  induction df generalizing prev i with
  | nil => simp at h
  | cons c rest ih =>
    cases i with
    | zero => exact ⟨rfl, rfl⟩
    | succ j =>
      simp only [haRec, rowGet_cons_succ]
      exact ih _ _ (by simpa using Nat.lt_of_succ_lt_succ h)

/-- The head of the sequential loop: HA_OPEN of row 0 is seeded from
the accumulator (raw (open + close) / 2 when there is no previous HA
row). -/
theorem haRec_open_zero (prev : Option (ℚ × ℚ)) (c : Candle) (rest : List Candle) :
    (rowGet (haRec prev (c :: rest)) 0).HA_OPEN =
      (match prev with
        | none => (c.open_ + c.close) / 2
        | some (po, pc) => (po + pc) / 2) := by
  cases prev with
  | none => rfl
  | some p => rfl

/-- indicators.py line 50: for every later row, HA_OPEN is the average
of the previous HA_OPEN and HA_CLOSE. -/
theorem haRec_open_succ (prev : Option (ℚ × ℚ)) (df : List Candle) (i : ℕ)
    (h : i + 1 < df.length) :
    (rowGet (haRec prev df) (i + 1)).HA_OPEN =
      ((rowGet (haRec prev df) i).HA_OPEN + (rowGet (haRec prev df) i).HA_CLOSE) / 2 := by
  induction df generalizing prev i with
  | nil => simp at h
  | cons c rest ih =>
    cases i with
    | zero =>
      have hr : 0 < rest.length := by simpa using Nat.lt_of_succ_lt_succ h
      cases rest with
      | nil => simp at hr
      | cons c2 rest2 => rfl
    | succ j =>
      simp only [haRec, rowGet_cons_succ]
      exact ih _ _ (by simpa using Nat.lt_of_succ_lt_succ h)

/-- Prefix stability of the sequential loop: the loop on a prefix
produces the prefix of the loop output.  This is the heart of the
no-look-ahead property of the Heikin-Ashi transformer. -/
theorem haRec_take (prev : Option (ℚ × ℚ)) (df : List Candle) (n : ℕ) :
    haRec prev (df.take n) = (haRec prev df).take n := by
  induction df generalizing prev n with
  | nil => simp [haRec]
  | cons c rest ih =>
    cases n with
    | zero => rfl
    | succ m => simp [haRec, ih]

theorem calculate_heikin_ashi_take (df : List Candle) (n : ℕ) :
    calculate_heikin_ashi (df.take n) = (calculate_heikin_ashi df).take n :=
  haRec_take none df n

/-- Arithmetic mean of a list of rationals (the value of a full
rolling-mean window). -/
def listMean (w : List ℚ) : ℚ :=
  w.sum / w.length

/-- The rolling window of length `period` ending at index i of the
close column: the last `period` entries of the first i + 1 entries.
Empty result encodes an incomplete window. -/
def rollWindow (closes : List ℚ) (period i : ℕ) : List ℚ :=
  (closes.take (i + 1)).drop (i + 1 - period)

/-- One row of indicators.py lines 21-24 at index i:
BB_MIDDLE is the rolling mean (NaN before period - 1 observations),
the rolling sample standard deviation additionally needs period >= 2,
and BB_UPPER / BB_LOWER are middle plus / minus std_dev times it. -/
def bbRowAt (stdFn : List ℚ → ℚ) (closes : List ℚ) (period : ℕ) (std_dev : ℚ)
    (i : ℕ) : BBRow :=
  let mid : Option ℚ := if i + 1 < period then none else some (listMean (rollWindow closes period i))
  let sd : Option ℚ := if i + 1 < period ∨ period < 2 then none
    else some (stdFn (rollWindow closes period i))
  { BB_MIDDLE := mid
    BB_UPPER := match mid, sd with
      | some m, some s => some (m + std_dev * s)
      | _, _ => none
    BB_LOWER := match mid, sd with
      | some m, some s => some (m - std_dev * s)
      | _, _ => none }

/-- indicators.py lines 8-26: calculate_bollinger_bands.  The rolling
statistics are taken over the close column; a nonpositive window size
is rejected by the rolling-window constructor of the dataframe library
(modelled as none), every positive period is accepted. -/
def calculate_bollinger_bands (stdFn : List ℚ → ℚ) (df : List Candle)
    (period : ℕ) (std_dev : ℚ) : Option (List BBRow) :=
  if period = 0 then none
  else some ((List.range df.length).map
    (bbRowAt stdFn (df.map Candle.close) period std_dev))

/-- The band rows of a frame for the default detector parameters
(period 20, std_dev 2), unwrapped: 20 > 0 so the calculator always
succeeds. -/
def bbRows (stdFn : List ℚ → ℚ) (df : List Candle) : List BBRow :=
  (List.range df.length).map (bbRowAt stdFn (df.map Candle.close) 20 2)

theorem calculate_bollinger_bands_twenty (stdFn : List ℚ → ℚ) (df : List Candle) :
    calculate_bollinger_bands stdFn df 20 2 = some (bbRows stdFn df) := rfl

/-- The candle colour of indicators.py lines 59-69: green iff
HA_CLOSE > HA_OPEN, red otherwise. -/
inductive HAColor where
  | green
  | red
  deriving DecidableEq, Repr

/-- indicators.py lines 59-69: get_ha_candle_color. -/
def get_ha_candle_color (row : HARow) : HAColor :=
  if row.HA_CLOSE > row.HA_OPEN then .green else .red

/-- indicators.py lines 72-86: calculate_ha_body_size_percentage.  The
zero-range candle returns 0 before any division happens. -/
def calculate_ha_body_size_percentage (row : HARow) : ℚ :=
  let total_range := row.HA_HIGH - row.HA_LOW
  if total_range = 0 then 0
  else
    let body_size := |row.HA_CLOSE - row.HA_OPEN|
    body_size / total_range * 100

/-- The band side argument of check_bb_touch. -/
inductive BandType where
  | lower
  | upper
  deriving DecidableEq, Repr

/-- A pandas comparison x <= cell where the cell may be NaN: false on a
missing cell. -/
def cellLE (x : ℚ) (cell : Option ℚ) : Bool :=
  match cell with
  | none => false
  | some v => decide (x ≤ v)

/-- A pandas comparison x >= cell where the cell may be NaN: false on a
missing cell. -/
def cellGE (x : ℚ) (cell : Option ℚ) : Bool :=
  match cell with
  | none => false
  | some v => decide (v ≤ x)

/-- signals.py lines 15-31: check_bb_touch on a joined HA / band row:
HA_LOW <= BB_LOWER for the lower band, HA_HIGH >= BB_UPPER for the
upper band. -/
def check_bb_touch (ha : HARow) (bb : BBRow) (band_type : BandType) : Bool :=
  match band_type with
  | .lower => cellLE ha.HA_LOW bb.BB_LOWER
  | .upper => cellGE ha.HA_HIGH bb.BB_UPPER

/-- The tag of an emitted signal. -/
inductive SigKind where
  | BUY
  | SELL
  deriving DecidableEq, Repr

/-- The signal value returned by the detector: the tag together with
the timestamp df.index[-1] recorded in signal_details. -/
structure Signal where
  kind : SigKind
  timestamp : ℤ
  deriving DecidableEq, Repr

/-- signals.py lines 34-101: generate_signals.  Computes the Bollinger
bands (period 20, multiplier 2) and the Heikin-Ashi rows of the frame,
requires at least 2 candles, and tests the BUY then the SELL pattern on
the last adjacent pair of rows; at most one signal is returned and it
carries the timestamp of the last row. -/
def generate_signals (stdFn : List ℚ → ℚ) (df : List Candle)
    (min_body_size : ℚ) : Option Signal :=
  let bb := bbRows stdFn df
  let ha := calculate_heikin_ashi df
  if df.length < 2 then none
  else
    let n := df.length
    let prevHA := rowGet ha (n - 2)
    let prevBB := rowGet bb (n - 2)
    let curHA := rowGet ha (n - 1)
    let ts := (rowGet df (n - 1)).timestamp
    if get_ha_candle_color prevHA = .red ∧
        check_bb_touch prevHA prevBB .lower = true ∧
        get_ha_candle_color curHA = .green ∧
        min_body_size ≤ calculate_ha_body_size_percentage curHA then
      some ⟨.BUY, ts⟩
    else if get_ha_candle_color prevHA = .green ∧
        check_bb_touch prevHA prevBB .upper = true ∧
        get_ha_candle_color curHA = .red ∧
        min_body_size ≤ calculate_ha_body_size_percentage curHA then
      some ⟨.SELL, ts⟩
    else none

/-- The type tag of a ledger entry appended by the backtester; only
long entries and exits are ever constructed (spot trading, no shorts). -/
inductive TradeType where
  | ENTRY_LONG
  | EXIT_LONG
  deriving DecidableEq, Repr

/-- A ledger entry of backtesting.py: the trades list elements.  The
profit key is present only on exits (none on entries). -/
structure Trade where
  type_ : TradeType
  timestamp : ℤ
  price : ℚ
  size : ℚ
  profit : Option ℚ
  deriving DecidableEq, Repr

/-- t.get of the profit key with default 0. -/
def tradeProfit (t : Trade) : ℚ :=
  t.profit.getD 0

/-- The position side; the code only ever stores the string long (or
None). -/
inductive PosSide where
  | long
  deriving DecidableEq, Repr

/-- The mutable fields of the Backtester during a run. -/
structure BTState where
  capital : ℚ
  position : Option PosSide
  position_size : ℚ
  entry_price : ℚ
  trades : List Trade
  deriving DecidableEq, Repr

/-- backtesting.py line 10. -/
def MIN_INDICATOR_PERIODS : ℕ := 30

/-- One iteration of the loop of backtesting.py lines 57-96 at index i:
run the detector on the prefix df[0..i], then dispatch on the signal.
A BUY while flat opens a long of size capital / price; a BUY while long
falls through (no branch taken); a SELL while long realises
exit_value = size * price, sets capital to it and appends the exit with
profit = exit_value - old capital; a SELL while flat does nothing
(shorting is not implemented); no signal does nothing. -/
def btStep (stdFn : List ℚ → ℚ) (min_body_size : ℚ) (df : List Candle)
    (s : BTState) (i : ℕ) : BTState :=
  let sig := generate_signals stdFn (df.take (i + 1)) min_body_size
  let current_price := (rowGet df i).close
  let current_time := (rowGet df i).timestamp
  match sig with
  | some ⟨.BUY, _⟩ =>
    if s.position = none then
      { capital := s.capital
        position := some .long
        position_size := s.capital / current_price
        entry_price := current_price
        trades := s.trades ++
          [⟨.ENTRY_LONG, current_time, current_price, s.capital / current_price, none⟩] }
    else s
  | some ⟨.SELL, _⟩ =>
    if s.position = some .long then
      let exit_value := s.position_size * current_price
      let profit := exit_value - s.capital
      { capital := exit_value
        position := none
        position_size := 0
        entry_price := 0
        trades := s.trades ++
          [⟨.EXIT_LONG, current_time, current_price, s.position_size, some profit⟩] }
    else s
  | none => s

/-- The performance report assembled by backtesting.py lines 102-127. -/
structure BacktestResults where
  initial_capital : ℚ
  final_capital : ℚ
  total_profit : ℚ
  returns_percentage : ℚ
  total_trades : ℕ
  winning_trades : ℕ
  losing_trades : ℕ
  win_rate : ℚ
  trades : List Trade
  deriving DecidableEq, Repr

/-- backtesting.py lines 102-127: Backtester._calculate_results.
total_trades counts exits, winning / losing trades count ledger entries
with positive / negative profit (entries default to 0), total_profit
sums the profit defaults over the whole ledger, and win_rate is the
percentage winning_trades / total_trades * 100 guarded by
total_trades > 0. -/
def calculate_results (initial_capital : ℚ) (s : BTState) : BacktestResults :=
  let total_trades := (s.trades.filter (fun t => decide (t.type_ = .EXIT_LONG))).length
  let winning_trades := (s.trades.filter (fun t => decide (0 < tradeProfit t))).length
  let losing_trades := (s.trades.filter (fun t => decide (tradeProfit t < 0))).length
  let total_profit := (s.trades.map tradeProfit).sum
  let final_capital := s.capital
  { initial_capital := initial_capital
    final_capital := final_capital
    total_profit := total_profit
    returns_percentage := (final_capital - initial_capital) / initial_capital * 100
    total_trades := total_trades
    winning_trades := winning_trades
    losing_trades := losing_trades
    win_rate := if 0 < total_trades then (winning_trades : ℚ) / (total_trades : ℚ) * 100 else 0
    trades := s.trades }

/-- The initial Backtester state reset at the top of
backtest_single_pair (lines 45-49). -/
def btInit (initial_capital : ℚ) : BTState :=
  ⟨initial_capital, none, 0, 0, []⟩

/-- backtesting.py lines 33-100: Backtester.backtest_single_pair.
Returns None on fewer than MIN_INDICATOR_PERIODS candles, otherwise
folds the loop body over the indices MIN_INDICATOR_PERIODS .. len - 1
and reports the results. -/
def backtest_single_pair (stdFn : List ℚ → ℚ) (df : List Candle)
    (initial_capital : ℚ) (min_body_size : ℚ) : Option BacktestResults :=
  if df.length < MIN_INDICATOR_PERIODS then none
  else some (calculate_results initial_capital
    ((List.range' MIN_INDICATOR_PERIODS (df.length - MIN_INDICATOR_PERIODS)).foldl
      (btStep stdFn min_body_size df) (btInit initial_capital)))

theorem rowGet_take {α : Type} [Inhabited α] (l : List α) (n j : ℕ) (h : j < n) :
    rowGet (l.take n) j = rowGet l j := by
  simp [rowGet, List.getD_eq_getElem?_getD, List.getElem?_take, h]

theorem rowGet_map_range {α : Type} [Inhabited α] (f : ℕ → α) (n j : ℕ) (h : j < n) :
    rowGet ((List.range n).map f) j = f j := by
  simp [rowGet, List.getD_eq_getElem?_getD, List.getElem?_map, List.getElem?_range h]

/-- The rolling window ending at index j only reads the first j + 1
closes, so truncating the close column after index j does not change
it. -/
theorem rollWindow_take (closes : List ℚ) (period n j : ℕ) (h : j < n) :
    rollWindow (closes.take n) period j = rollWindow closes period j := by
  unfold rollWindow
  rw [List.take_take, min_eq_left (by omega)]

/-- Band rows are prefix stable: the row at index j of the bands of a
truncated frame equals the row at j of the bands of the full frame. -/
theorem bbRowAt_take (stdFn : List ℚ → ℚ) (closes : List ℚ) (period : ℕ)
    (std_dev : ℚ) (n j : ℕ) (h : j < n) :
    bbRowAt stdFn (closes.take n) period std_dev j = bbRowAt stdFn closes period std_dev j := by
  unfold bbRowAt
  rw [rollWindow_take closes period n j h]

theorem rowGet_bbRows_take (stdFn : List ℚ → ℚ) (df : List Candle) (n j : ℕ)
    (hjn : j < n) (hj : j < df.length) :
    rowGet (bbRows stdFn (df.take n)) j = rowGet (bbRows stdFn df) j := by
  unfold bbRows
  have hlen : (df.take n).length = min n df.length := List.length_take n df
  have hjlen : j < (df.take n).length := by omega
  rw [rowGet_map_range _ _ _ hjlen, rowGet_map_range _ _ _ hj,
    List.map_take Candle.close df n, bbRowAt_take _ _ _ _ _ _ hjn]

theorem rowGet_calculate_heikin_ashi_take (df : List Candle) (n j : ℕ)
    (hjn : j < n) :
    rowGet (calculate_heikin_ashi (df.take n)) j = rowGet (calculate_heikin_ashi df) j := by
  rw [calculate_heikin_ashi_take, rowGet_take _ _ _ hjn]

/-- The spec-side reading of the backtest contract: compute the
Heikin-Ashi rows and the Bollinger bands once over the FULL candle
sequence and evaluate the detector rule at index i, on the adjacent
pair (i - 1, i), carrying the timestamp of candle i.  This is the
definition the prefix replay of the simulator is compared against. -/
def detectorAtIndex (stdFn : List ℚ → ℚ) (df : List Candle)
    (min_body_size : ℚ) (i : ℕ) : Option Signal :=
  let bb := bbRows stdFn df
  let ha := calculate_heikin_ashi df
  if i < 1 then none
  else
    let prevHA := rowGet ha (i - 1)
    let prevBB := rowGet bb (i - 1)
    let curHA := rowGet ha i
    let ts := (rowGet df i).timestamp
    if get_ha_candle_color prevHA = .red ∧
        check_bb_touch prevHA prevBB .lower = true ∧
        get_ha_candle_color curHA = .green ∧
        min_body_size ≤ calculate_ha_body_size_percentage curHA then
      some ⟨.BUY, ts⟩
    else if get_ha_candle_color prevHA = .green ∧
        check_bb_touch prevHA prevBB .upper = true ∧
        get_ha_candle_color curHA = .red ∧
        min_body_size ≤ calculate_ha_body_size_percentage curHA then
      some ⟨.SELL, ts⟩
    else none

/-- C1.  Prefix replay / no look-ahead: at every index i at or past the
warm-up threshold of the simulator, the signal the backtest loop
obtains by recomputing the indicators and running the detector on the
prefix df[0..i] (the exact call of backtesting.py line 58-59) equals
the detector evaluated at index i over the indicators of the full
sequence; the decision at i never reads any candle after i. -/
theorem backtest_prefix_replay (stdFn : List ℚ → ℚ) (df : List Candle)
    (min_body_size : ℚ) (i : ℕ) (hwarm : MIN_INDICATOR_PERIODS ≤ i)
    (hi : i < df.length) :
    generate_signals stdFn (df.take (i + 1)) min_body_size =
      detectorAtIndex stdFn df min_body_size i := by
  have h30 : (30 : ℕ) ≤ i := hwarm
  have hlen : (df.take (i + 1)).length = i + 1 := by
    rw [List.length_take]; omega
  have hip : i - 1 < i + 1 := by omega
  have hii : i < i + 1 := by omega
  have hpd : i - 1 < df.length := by omega
  unfold generate_signals detectorAtIndex
  simp only [hlen]
  rw [if_neg (by omega : ¬ i + 1 < 2), if_neg (by omega : ¬ i < 1)]
  have e1 : i + 1 - 2 = i - 1 := by omega
  have e2 : i + 1 - 1 = i := by omega
  rw [e1, e2]
  rw [rowGet_calculate_heikin_ashi_take df (i + 1) (i - 1) hip,
    rowGet_calculate_heikin_ashi_take df (i + 1) i hii,
    rowGet_bbRows_take stdFn df (i + 1) (i - 1) hip hpd,
    rowGet_take df (i + 1) i hii]

/-- The zero instantiation of the standard-deviation parameter.  On the
concrete inputs below, every rolling window whose band value the code
compares consists of twenty equal closes, so its true sample standard
deviation is exactly 0 and this instantiation coincides with the
source on those inputs. -/
def stdZero : List ℚ → ℚ := fun _ => 0

/-- A concrete 34-candle frame (timestamps 0..33).  Candles 0-29 are
flat at 100; candle 30 is a strong green Heikin-Ashi candle after a red
one touching the lower band (a BUY); candle 31 is a small-bodied red
candle (no signal); candle 32 repeats the BUY pattern while the
position is already long (exercising the no-pyramiding branch); candle
33 is a strong red candle after a green one touching the upper band (a
SELL) and closes at 104.  Every close before index 33 is 100, so every
rolling window the detector compares during the run is constant and
its sample standard deviation is exactly 0. -/
def dfRun : List Candle :=
  ((List.range 30).map (fun i => ⟨(i : ℤ), 100, 100, 100, 100⟩)) ++
    [⟨30, 104, 112, 100, 100⟩, ⟨31, 100, 110, 90, 100⟩,
     ⟨32, 116, 132, 100, 100⟩, ⟨33, 100, 104, 100, 104⟩]

/-- The ledger entry opened at step 30 of the run on dfRun. -/
def tradeEntry30 : Trade := ⟨.ENTRY_LONG, 30, 100, 100, none⟩

/-- The ledger entry closed at step 33 of the run on dfRun. -/
def tradeExit33 : Trade := ⟨.EXIT_LONG, 33, 104, 100, some 400⟩

/-- The state of the run on dfRun after the BUY at step 30. -/
def runS1 : BTState := ⟨10000, some .long, 100, 100, [tradeEntry30]⟩

/-- The final state of the run on dfRun after the SELL at step 33. -/
def runS3 : BTState := ⟨10400, none, 0, 0, [tradeEntry30, tradeExit33]⟩

/-- The report of the run on dfRun. -/
def runResults : BacktestResults :=
  ⟨10000, 10400, 400, 4, 1, 1, 0, 100, [tradeEntry30, tradeExit33]⟩


/-- Transition characterization, no-signal case: the loop body leaves
the state untouched. -/
theorem btStep_none (stdFn : List ℚ → ℚ) (mbs : ℚ) (df : List Candle)
    (s : BTState) (i : ℕ)
    (hsig : generate_signals stdFn (df.take (i + 1)) mbs = none) :
    btStep stdFn mbs df s i = s := by
  simp only [btStep, hsig]

/-- Transition characterization, BUY while already long: the loop body
is a no-op (no pyramiding); capital, size, entry price, position and
ledger are all unchanged. -/
theorem btStep_buy_long (stdFn : List ℚ → ℚ) (mbs : ℚ) (df : List Candle)
    (s : BTState) (i : ℕ) (ts : ℤ)
    (hsig : generate_signals stdFn (df.take (i + 1)) mbs = some ⟨.BUY, ts⟩)
    (hpos : s.position = some .long) :
    btStep stdFn mbs df s i = s := by
  simp only [btStep, hsig, hpos]
  simp

/-- Transition characterization, SELL while flat: the loop body is a
no-op (no shorting). -/
theorem btStep_sell_flat (stdFn : List ℚ → ℚ) (mbs : ℚ) (df : List Candle)
    (s : BTState) (i : ℕ) (ts : ℤ)
    (hsig : generate_signals stdFn (df.take (i + 1)) mbs = some ⟨.SELL, ts⟩)
    (hpos : s.position = none) :
    btStep stdFn mbs df s i = s := by
  simp only [btStep, hsig, hpos]
  simp

/-- Transition characterization, BUY while flat: a long position of
size capital / price opens at the close of candle i, capital is not
touched, and exactly one ENTRY_LONG ledger entry is appended. -/
theorem btStep_buy_flat (stdFn : List ℚ → ℚ) (mbs : ℚ) (df : List Candle)
    (s : BTState) (i : ℕ) (ts : ℤ)
    (hsig : generate_signals stdFn (df.take (i + 1)) mbs = some ⟨.BUY, ts⟩)
    (hpos : s.position = none) :
    btStep stdFn mbs df s i =
      { capital := s.capital
        position := some .long
        position_size := s.capital / (rowGet df i).close
        entry_price := (rowGet df i).close
        trades := s.trades ++ [⟨.ENTRY_LONG, (rowGet df i).timestamp, (rowGet df i).close,
          s.capital / (rowGet df i).close, none⟩] } := by
  simp only [btStep, hsig, hpos]
  simp

/-- Transition characterization, SELL while long: the position closes
at the close of candle i, capital becomes size * price, and exactly one
EXIT_LONG ledger entry with profit = size * price - old capital is
appended. -/
theorem btStep_sell_long (stdFn : List ℚ → ℚ) (mbs : ℚ) (df : List Candle)
    (s : BTState) (i : ℕ) (ts : ℤ)
    (hsig : generate_signals stdFn (df.take (i + 1)) mbs = some ⟨.SELL, ts⟩)
    (hpos : s.position = some .long) :
    btStep stdFn mbs df s i =
      { capital := s.position_size * (rowGet df i).close
        position := none
        position_size := 0
        entry_price := 0
        trades := s.trades ++ [⟨.EXIT_LONG, (rowGet df i).timestamp, (rowGet df i).close,
          s.position_size, some (s.position_size * (rowGet df i).close - s.capital)⟩] } := by
  simp only [btStep, hsig, hpos]
  simp


set_option maxRecDepth 8000

theorem dfRun_sig30 :
    generate_signals stdZero (dfRun.take 31) 30 = some ⟨.BUY, 30⟩ := by
  with_unfolding_all decide

theorem dfRun_row30 : rowGet dfRun 30 = ⟨30, 104, 112, 100, 100⟩ := by
  with_unfolding_all decide

theorem dfRun_step30 : btStep stdZero 30 dfRun (btInit 10000) 30 = runS1 := by
  rw [btStep_buy_flat stdZero 30 dfRun (btInit 10000) 30 30 dfRun_sig30 rfl, dfRun_row30]
  unfold btInit runS1 tradeEntry30
  norm_num

theorem dfRun_sig31 :
    generate_signals stdZero (dfRun.take 32) 30 = none := by
  with_unfolding_all decide

theorem dfRun_sig32 :
    generate_signals stdZero (dfRun.take 33) 30 = some ⟨.BUY, 32⟩ := by
  with_unfolding_all decide

theorem dfRun_sig33 :
    generate_signals stdZero (dfRun.take 34) 30 = some ⟨.SELL, 33⟩ := by
  with_unfolding_all decide

theorem dfRun_row33 : rowGet dfRun 33 = ⟨33, 100, 104, 100, 104⟩ := by
  with_unfolding_all decide

theorem dfRun_step31 : btStep stdZero 30 dfRun runS1 31 = runS1 :=
  btStep_none stdZero 30 dfRun runS1 31 dfRun_sig31

theorem dfRun_step32 : btStep stdZero 30 dfRun runS1 32 = runS1 :=
  btStep_buy_long stdZero 30 dfRun runS1 32 32 dfRun_sig32 rfl

theorem dfRun_step33 : btStep stdZero 30 dfRun runS1 33 = runS3 := by
  rw [btStep_sell_long stdZero 30 dfRun runS1 33 33 dfRun_sig33 rfl, dfRun_row33]
  unfold runS1 runS3 tradeEntry30 tradeExit33
  norm_num

theorem dfRun_result :
    backtest_single_pair stdZero dfRun 10000 30 = some runResults := by
  have hlt : ¬ dfRun.length < MIN_INDICATOR_PERIODS := by with_unfolding_all decide
  have hrange : List.range' MIN_INDICATOR_PERIODS (dfRun.length - MIN_INDICATOR_PERIODS) =
      [30, 31, 32, 33] := by with_unfolding_all decide
  have hcalc : calculate_results 10000 runS3 = runResults := by
    unfold calculate_results runS3 runResults tradeEntry30 tradeExit33 tradeProfit
    norm_num
    with_unfolding_all decide
  unfold backtest_single_pair
  rw [if_neg hlt, hrange]
  simp only [List.foldl_cons, List.foldl_nil]
  rw [dfRun_step30, dfRun_step31, dfRun_step32, dfRun_step33, hcalc]

theorem calculate_heikin_ashi_high_low (df : List Candle) (i : ℕ) (h : i < df.length) :
    (rowGet (calculate_heikin_ashi df) i).HA_HIGH =
      max (rowGet df i).high
        (max (rowGet (calculate_heikin_ashi df) i).HA_OPEN
          (rowGet (calculate_heikin_ashi df) i).HA_CLOSE) ∧
    (rowGet (calculate_heikin_ashi df) i).HA_LOW =
      min (rowGet df i).low
        (min (rowGet (calculate_heikin_ashi df) i).HA_OPEN
          (rowGet (calculate_heikin_ashi df) i).HA_CLOSE) :=
  haRec_high_low none df i h

/-- C2.  The Heikin-Ashi recurrence of calculate_heikin_ashi: the
output has the length of the input; HA_CLOSE at every index is the
average of the four raw fields of the aligned candle; HA_OPEN at index
0 is the average of the raw open and close of candle 0; HA_OPEN at
every later index is the average of the previous HA_OPEN and HA_CLOSE;
and HA_HIGH / HA_LOW are the max / min of the raw high / low with the
HA_OPEN and HA_CLOSE of the same row. -/
theorem heikin_ashi_recurrence (df : List Candle) (i : ℕ) (h : i < df.length) :
    (calculate_heikin_ashi df).length = df.length ∧
    (rowGet (calculate_heikin_ashi df) i).HA_CLOSE =
      ((rowGet df i).open_ + (rowGet df i).high + (rowGet df i).low + (rowGet df i).close) / 4 ∧
    (i = 0 → (rowGet (calculate_heikin_ashi df) 0).HA_OPEN =
      ((rowGet df 0).open_ + (rowGet df 0).close) / 2) ∧
    (∀ j, i = j + 1 → (rowGet (calculate_heikin_ashi df) (j + 1)).HA_OPEN =
      ((rowGet (calculate_heikin_ashi df) j).HA_OPEN +
        (rowGet (calculate_heikin_ashi df) j).HA_CLOSE) / 2) ∧
    (rowGet (calculate_heikin_ashi df) i).HA_HIGH =
      max (rowGet df i).high
        (max (rowGet (calculate_heikin_ashi df) i).HA_OPEN
          (rowGet (calculate_heikin_ashi df) i).HA_CLOSE) ∧
    (rowGet (calculate_heikin_ashi df) i).HA_LOW =
      min (rowGet df i).low
        (min (rowGet (calculate_heikin_ashi df) i).HA_OPEN
          (rowGet (calculate_heikin_ashi df) i).HA_CLOSE) := by
  refine ⟨calculate_heikin_ashi_length df, ?_, ?_, ?_,
    (calculate_heikin_ashi_high_low df i h).1, (calculate_heikin_ashi_high_low df i h).2⟩
  · have := haRec_close none df i h
    rw [haCloseOf] at this
    exact this
  · intro hi0
    cases df with
    | nil => simp at h
    | cons c rest => exact haRec_open_zero none c rest
  · intro j hij
    subst hij
    exact haRec_open_succ none df j h

/-- C2 witness: the recurrence instantiated on the concrete frame
dfRun at index 31. -/
theorem heikin_ashi_recurrence_witness :
    31 < dfRun.length ∧
    ((calculate_heikin_ashi dfRun).length = dfRun.length ∧
    (rowGet (calculate_heikin_ashi dfRun) 31).HA_CLOSE =
      ((rowGet dfRun 31).open_ + (rowGet dfRun 31).high + (rowGet dfRun 31).low +
        (rowGet dfRun 31).close) / 4 ∧
    (31 = 0 → (rowGet (calculate_heikin_ashi dfRun) 0).HA_OPEN =
      ((rowGet dfRun 0).open_ + (rowGet dfRun 0).close) / 2) ∧
    (∀ j, 31 = j + 1 → (rowGet (calculate_heikin_ashi dfRun) (j + 1)).HA_OPEN =
      ((rowGet (calculate_heikin_ashi dfRun) j).HA_OPEN +
        (rowGet (calculate_heikin_ashi dfRun) j).HA_CLOSE) / 2) ∧
    (rowGet (calculate_heikin_ashi dfRun) 31).HA_HIGH =
      max (rowGet dfRun 31).high
        (max (rowGet (calculate_heikin_ashi dfRun) 31).HA_OPEN
          (rowGet (calculate_heikin_ashi dfRun) 31).HA_CLOSE) ∧
    (rowGet (calculate_heikin_ashi dfRun) 31).HA_LOW =
      min (rowGet dfRun 31).low
        (min (rowGet (calculate_heikin_ashi dfRun) 31).HA_OPEN
          (rowGet (calculate_heikin_ashi dfRun) 31).HA_CLOSE)) :=
  ⟨by with_unfolding_all decide, heikin_ashi_recurrence dfRun 31 (by with_unfolding_all decide)⟩

/-- C1 witness: prefix replay instantiated on the concrete frame dfRun
at index 33 (where the full run emits its SELL). -/
theorem backtest_prefix_replay_witness :
    MIN_INDICATOR_PERIODS ≤ 33 ∧ 33 < dfRun.length ∧
    generate_signals stdZero (dfRun.take (33 + 1)) 30 =
      detectorAtIndex stdZero dfRun 30 33 :=
  ⟨by with_unfolding_all decide, by with_unfolding_all decide,
    backtest_prefix_replay stdZero dfRun 30 33 (by with_unfolding_all decide)
      (by with_unfolding_all decide)⟩

/-- C3.  The detector rule of generate_signals, for any frame whose
bands are defined on the last adjacent pair (length at least 21 with
the default period 20, so both last rows carry defined bands): a BUY
with the last timestamp is returned iff the earlier row is red and
touches the lower band (wick-or-body: HA_LOW <= lower or
HA_CLOSE <= lower; in check_bb_touch only HA_LOW is compared, which is
equivalent because HA_LOW <= HA_CLOSE for every Heikin-Ashi row), and
the later row is green with body percentage at least min_body_size;
SELL under the mirrored condition; otherwise no signal. -/
theorem signal_detector_rule (stdFn : List ℚ → ℚ) (df : List Candle) (mbs : ℚ)
    (h : 21 ≤ df.length) (bl bu : ℚ)
    (hbl : (rowGet (bbRows stdFn df) (df.length - 2)).BB_LOWER = some bl)
    (hbu : (rowGet (bbRows stdFn df) (df.length - 2)).BB_UPPER = some bu) :
    (generate_signals stdFn df mbs = some ⟨.BUY, (rowGet df (df.length - 1)).timestamp⟩ ↔
      (get_ha_candle_color (rowGet (calculate_heikin_ashi df) (df.length - 2)) = .red ∧
       ((rowGet (calculate_heikin_ashi df) (df.length - 2)).HA_LOW ≤ bl ∨
        (rowGet (calculate_heikin_ashi df) (df.length - 2)).HA_CLOSE ≤ bl) ∧
       get_ha_candle_color (rowGet (calculate_heikin_ashi df) (df.length - 1)) = .green ∧
       mbs ≤ calculate_ha_body_size_percentage (rowGet (calculate_heikin_ashi df) (df.length - 1)))) ∧
    (generate_signals stdFn df mbs = some ⟨.SELL, (rowGet df (df.length - 1)).timestamp⟩ ↔
      (get_ha_candle_color (rowGet (calculate_heikin_ashi df) (df.length - 2)) = .green ∧
       (bu ≤ (rowGet (calculate_heikin_ashi df) (df.length - 2)).HA_HIGH ∨
        bu ≤ (rowGet (calculate_heikin_ashi df) (df.length - 2)).HA_CLOSE) ∧
       get_ha_candle_color (rowGet (calculate_heikin_ashi df) (df.length - 1)) = .red ∧
       mbs ≤ calculate_ha_body_size_percentage (rowGet (calculate_heikin_ashi df) (df.length - 1)))) ∧
    (generate_signals stdFn df mbs = none ↔
      (¬ (get_ha_candle_color (rowGet (calculate_heikin_ashi df) (df.length - 2)) = .red ∧
       ((rowGet (calculate_heikin_ashi df) (df.length - 2)).HA_LOW ≤ bl ∨
        (rowGet (calculate_heikin_ashi df) (df.length - 2)).HA_CLOSE ≤ bl) ∧
       get_ha_candle_color (rowGet (calculate_heikin_ashi df) (df.length - 1)) = .green ∧
       mbs ≤ calculate_ha_body_size_percentage (rowGet (calculate_heikin_ashi df) (df.length - 1))) ∧
      ¬ (get_ha_candle_color (rowGet (calculate_heikin_ashi df) (df.length - 2)) = .green ∧
       (bu ≤ (rowGet (calculate_heikin_ashi df) (df.length - 2)).HA_HIGH ∨
        bu ≤ (rowGet (calculate_heikin_ashi df) (df.length - 2)).HA_CLOSE) ∧
       get_ha_candle_color (rowGet (calculate_heikin_ashi df) (df.length - 1)) = .red ∧
       mbs ≤ calculate_ha_body_size_percentage (rowGet (calculate_heikin_ashi df) (df.length - 1))))) := by
  have hpd : df.length - 2 < df.length := by omega
  have hcd : df.length - 1 < df.length := by omega
  have hLC : (rowGet (calculate_heikin_ashi df) (df.length - 2)).HA_LOW ≤
      (rowGet (calculate_heikin_ashi df) (df.length - 2)).HA_CLOSE := by
    have := (calculate_heikin_ashi_high_low df (df.length - 2) hpd).2
    rw [this]
    exact le_trans (min_le_right _ _) (min_le_right _ _)
  have hCH : (rowGet (calculate_heikin_ashi df) (df.length - 2)).HA_CLOSE ≤
      (rowGet (calculate_heikin_ashi df) (df.length - 2)).HA_HIGH := by
    have := (calculate_heikin_ashi_high_low df (df.length - 2) hpd).1
    rw [this]
    exact le_trans (le_max_right _ _) (le_max_right _ _)
  have touchL : (check_bb_touch (rowGet (calculate_heikin_ashi df) (df.length - 2))
      (rowGet (bbRows stdFn df) (df.length - 2)) .lower = true) ↔
      ((rowGet (calculate_heikin_ashi df) (df.length - 2)).HA_LOW ≤ bl ∨
       (rowGet (calculate_heikin_ashi df) (df.length - 2)).HA_CLOSE ≤ bl) := by
    unfold check_bb_touch cellLE
    rw [hbl]
    simp only [decide_eq_true_eq]
    constructor
    · exact fun hx => Or.inl hx
    · rintro (hx | hx)
      · exact hx
      · exact le_trans hLC hx
  have touchU : (check_bb_touch (rowGet (calculate_heikin_ashi df) (df.length - 2))
      (rowGet (bbRows stdFn df) (df.length - 2)) .upper = true) ↔
      (bu ≤ (rowGet (calculate_heikin_ashi df) (df.length - 2)).HA_HIGH ∨
       bu ≤ (rowGet (calculate_heikin_ashi df) (df.length - 2)).HA_CLOSE) := by
    unfold check_bb_touch cellGE
    rw [hbu]
    simp only [decide_eq_true_eq]
    constructor
    · exact fun hx => Or.inl hx
    · rintro (hx | hx)
      · exact hx
      · exact le_trans hx hCH
  have h2 : ¬ df.length < 2 := by omega
  simp only [generate_signals]
  rw [if_neg h2]
  by_cases hA : (get_ha_candle_color (rowGet (calculate_heikin_ashi df) (df.length - 2)) = .red ∧
      check_bb_touch (rowGet (calculate_heikin_ashi df) (df.length - 2))
        (rowGet (bbRows stdFn df) (df.length - 2)) .lower = true ∧
      get_ha_candle_color (rowGet (calculate_heikin_ashi df) (df.length - 1)) = .green ∧
      mbs ≤ calculate_ha_body_size_percentage (rowGet (calculate_heikin_ashi df) (df.length - 1)))
  · rw [if_pos hA]
    refine ⟨?_, ?_, ?_⟩
    · simp only [true_iff, Option.some.injEq, Signal.mk.injEq]
      exact ⟨hA.1, touchL.mp hA.2.1, hA.2.2⟩
    · constructor
      · intro hs
        simp only [Option.some.injEq, Signal.mk.injEq] at hs
        exact absurd hs.1 (by simp)
      · rintro ⟨hg, _⟩
        rw [hA.1] at hg
        exact absurd hg (by simp)
    · constructor
      · intro hs
        simp at hs
      · rintro ⟨hna, _⟩
        exact absurd ⟨hA.1, touchL.mp hA.2.1, hA.2.2⟩ hna
  · rw [if_neg hA]
    by_cases hB : (get_ha_candle_color (rowGet (calculate_heikin_ashi df) (df.length - 2)) = .green ∧
        check_bb_touch (rowGet (calculate_heikin_ashi df) (df.length - 2))
          (rowGet (bbRows stdFn df) (df.length - 2)) .upper = true ∧
        get_ha_candle_color (rowGet (calculate_heikin_ashi df) (df.length - 1)) = .red ∧
        mbs ≤ calculate_ha_body_size_percentage (rowGet (calculate_heikin_ashi df) (df.length - 1)))
    · rw [if_pos hB]
      refine ⟨?_, ?_, ?_⟩
      · constructor
        · intro hs
          simp only [Option.some.injEq, Signal.mk.injEq] at hs
          exact absurd hs.1 (by simp)
        · rintro ⟨hr, htch, hg, hbd⟩
          exact absurd ⟨hr, touchL.mpr htch, hg, hbd⟩ hA
      · simp only [true_iff, Option.some.injEq, Signal.mk.injEq]
        exact ⟨hB.1, touchU.mp hB.2.1, hB.2.2⟩
      · constructor
        · intro hs
          simp at hs
        · rintro ⟨_, hnb⟩
          exact absurd ⟨hB.1, touchU.mp hB.2.1, hB.2.2⟩ hnb
    · rw [if_neg hB]
      refine ⟨?_, ?_, ?_⟩
      · constructor
        · intro hs
          simp at hs
        · rintro ⟨hr, htch, hg, hbd⟩
          exact absurd ⟨hr, touchL.mpr htch, hg, hbd⟩ hA
      · constructor
        · intro hs
          simp at hs
        · rintro ⟨hr, htch, hg, hbd⟩
          exact absurd ⟨hr, touchU.mpr htch, hg, hbd⟩ hB
      · refine ⟨fun _ => ⟨?_, ?_⟩, fun _ => rfl⟩
        · rintro ⟨hr, htch, hg, hbd⟩
          exact absurd ⟨hr, touchL.mpr htch, hg, hbd⟩ hA
        · rintro ⟨hr, htch, hg, hbd⟩
          exact absurd ⟨hr, touchU.mpr htch, hg, hbd⟩ hB

/-- C3 witness: the rule instantiated on the 31-candle prefix of dfRun,
whose last pair is the red-at-lower-band / strong-green BUY pattern
with both bands defined and equal to 100. -/
theorem signal_detector_rule_witness :
    generate_signals stdZero (dfRun.take 31) 30 =
      some ⟨.BUY, (rowGet (dfRun.take 31) ((dfRun.take 31).length - 1)).timestamp⟩ :=
  ((signal_detector_rule stdZero (dfRun.take 31) 30 (by with_unfolding_all decide)
      100 100 (by with_unfolding_all decide) (by with_unfolding_all decide)).1).mpr
    (by with_unfolding_all decide)

/-- C4.  Long-only state machine of the backtest loop: the position
field ranges over none and some long only (there is no short state at
all), a BUY while long and a SELL while flat leave the whole state
untouched (capital, size, entry price, position and ledger unchanged),
and the only real transitions are flat-to-long on BUY (size =
capital / entry price, capital untouched, one ENTRY_LONG appended) and
long-to-flat on SELL (one EXIT_LONG appended).  The four implications
characterise every step of every run of backtest_single_pair, whose
loop is exactly a fold of btStep. -/
theorem backtest_state_machine (stdFn : List ℚ → ℚ) (mbs : ℚ) (df : List Candle)
    (s : BTState) (i : ℕ) :
    (∀ ts, generate_signals stdFn (df.take (i + 1)) mbs = some ⟨.BUY, ts⟩ →
      s.position = some .long → btStep stdFn mbs df s i = s) ∧
    (∀ ts, generate_signals stdFn (df.take (i + 1)) mbs = some ⟨.SELL, ts⟩ →
      s.position = none → btStep stdFn mbs df s i = s) ∧
    (∀ ts, generate_signals stdFn (df.take (i + 1)) mbs = some ⟨.BUY, ts⟩ →
      s.position = none → btStep stdFn mbs df s i =
        { capital := s.capital
          position := some .long
          position_size := s.capital / (rowGet df i).close
          entry_price := (rowGet df i).close
          trades := s.trades ++ [⟨.ENTRY_LONG, (rowGet df i).timestamp, (rowGet df i).close,
            s.capital / (rowGet df i).close, none⟩] }) ∧
    (∀ ts, generate_signals stdFn (df.take (i + 1)) mbs = some ⟨.SELL, ts⟩ →
      s.position = some .long → btStep stdFn mbs df s i =
        { capital := s.position_size * (rowGet df i).close
          position := none
          position_size := 0
          entry_price := 0
          trades := s.trades ++ [⟨.EXIT_LONG, (rowGet df i).timestamp, (rowGet df i).close,
            s.position_size, some (s.position_size * (rowGet df i).close - s.capital)⟩] }) ∧
    (generate_signals stdFn (df.take (i + 1)) mbs = none → btStep stdFn mbs df s i = s) :=
  ⟨fun ts hs hp => btStep_buy_long stdFn mbs df s i ts hs hp,
   fun ts hs hp => btStep_sell_flat stdFn mbs df s i ts hs hp,
   fun ts hs hp => btStep_buy_flat stdFn mbs df s i ts hs hp,
   fun ts hs hp => btStep_sell_long stdFn mbs df s i ts hs hp,
   fun hs => btStep_none stdFn mbs df s i hs⟩

/-- C4 witness: the no-pyramiding branch on the concrete run: at step
32 of dfRun a second BUY arrives while the state runS1 is already long,
and the step leaves runS1 exactly unchanged. -/
theorem backtest_state_machine_witness :
    generate_signals stdZero (dfRun.take (32 + 1)) 30 = some ⟨.BUY, 32⟩ ∧
    runS1.position = some .long ∧
    btStep stdZero 30 dfRun runS1 32 = runS1 :=
  ⟨dfRun_sig32, rfl,
    (backtest_state_machine stdZero 30 dfRun runS1 32).1 32 dfRun_sig32 rfl⟩

/-- One loop step preserves capital minus accumulated ledger profit:
entries append a profit-free trade and leave capital alone, exits move
capital to size * price while appending exactly that difference as
profit. -/
theorem btStep_capital_invariant (stdFn : List ℚ → ℚ) (mbs : ℚ) (df : List Candle)
    (s : BTState) (i : ℕ) :
    (btStep stdFn mbs df s i).capital -
        ((btStep stdFn mbs df s i).trades.map tradeProfit).sum =
      s.capital - (s.trades.map tradeProfit).sum := by
  cases hsig : generate_signals stdFn (df.take (i + 1)) mbs with
  | none => rw [btStep_none stdFn mbs df s i hsig]
  | some sig =>
    obtain ⟨kind, ts⟩ := sig
    cases kind with
    | BUY =>
      cases hpos : s.position with
      | none =>
        rw [btStep_buy_flat stdFn mbs df s i ts hsig hpos]
        simp [tradeProfit]
      | some side =>
        cases side
        rw [btStep_buy_long stdFn mbs df s i ts hsig hpos]
    | SELL =>
      cases hpos : s.position with
      | none =>
        rw [btStep_sell_flat stdFn mbs df s i ts hsig hpos]
      | some side =>
        cases side
        rw [btStep_sell_long stdFn mbs df s i ts hsig hpos]
        simp [tradeProfit]
        ring

/-- The loop fold preserves capital minus accumulated ledger profit. -/
theorem foldl_capital_invariant (stdFn : List ℚ → ℚ) (mbs : ℚ) (df : List Candle)
    (idxs : List ℕ) (s : BTState) :
    (idxs.foldl (btStep stdFn mbs df) s).capital -
        ((idxs.foldl (btStep stdFn mbs df) s).trades.map tradeProfit).sum =
      s.capital - (s.trades.map tradeProfit).sum := by
  induction idxs generalizing s with
  | nil => rfl
  | cons a l ih =>
    rw [List.foldl_cons, ih (btStep stdFn mbs df s a)]
    exact btStep_capital_invariant stdFn mbs df s a

/-- C5.  Capital conservation: every report of backtest_single_pair
satisfies final_capital = initial_capital + total_profit exactly, over
exact rationals; capital only moves on SELL-while-long exits and every
such move is recorded as that trade profit. -/
theorem backtest_capital_conservation (stdFn : List ℚ → ℚ) (df : List Candle)
    (initial_capital mbs : ℚ) (r : BacktestResults)
    (hr : backtest_single_pair stdFn df initial_capital mbs = some r) :
    r.final_capital = r.initial_capital + r.total_profit := by
  unfold backtest_single_pair at hr
  by_cases hlen : df.length < MIN_INDICATOR_PERIODS
  · rw [if_pos hlen] at hr
    exact absurd hr (by simp)
  · rw [if_neg hlen] at hr
    have hr2 := Option.some.inj hr
    have hinv := foldl_capital_invariant stdFn mbs df
      (List.range' MIN_INDICATOR_PERIODS (df.length - MIN_INDICATOR_PERIODS))
      (btInit initial_capital)
    rw [← hr2]
    unfold calculate_results
    simp only [btInit, List.map_nil, List.sum_nil] at hinv ⊢
    linarith

/-- C5 witness: conservation on the concrete run on dfRun, whose report
is 10400 = 10000 + 400. -/
theorem backtest_capital_conservation_witness :
    runResults.final_capital = runResults.initial_capital + runResults.total_profit :=
  backtest_capital_conservation stdZero dfRun 10000 30 runResults dfRun_result

/-- C6 counterexample: on the concrete frame dfRun the run closes one
trade and wins it, and the reported win_rate is 100, not
winning_trades / total_trades = 1: the field is a percentage
(multiplied by 100), so the claim as stated fails. -/
theorem win_rate_counterexample :
    backtest_single_pair stdZero dfRun 10000 30 = some runResults ∧
    runResults.total_trades = 1 ∧
    runResults.winning_trades = 1 ∧
    runResults.win_rate = 100 ∧
    ¬ runResults.win_rate =
      (runResults.winning_trades : ℚ) / (runResults.total_trades : ℚ) :=
  ⟨dfRun_result, rfl, rfl, rfl, by norm_num [runResults]⟩

/-- C6 amended.  Win-rate definition as the code computes it: 0 when no
trade closed (never a division fault), and otherwise the percentage
winning_trades / total_trades * 100, where winning trades are the
ledger entries with positive profit. -/
theorem win_rate_definition (stdFn : List ℚ → ℚ) (df : List Candle)
    (initial_capital mbs : ℚ) (r : BacktestResults)
    (hr : backtest_single_pair stdFn df initial_capital mbs = some r) :
    (r.total_trades = 0 → r.win_rate = 0) ∧
    (0 < r.total_trades →
      r.win_rate = (r.winning_trades : ℚ) / (r.total_trades : ℚ) * 100) := by
  unfold backtest_single_pair at hr
  by_cases hlen : df.length < MIN_INDICATOR_PERIODS
  · rw [if_pos hlen] at hr
    exact absurd hr (by simp)
  · rw [if_neg hlen] at hr
    have hr2 := Option.some.inj hr
    rw [← hr2]
    unfold calculate_results
    simp only
    constructor
    · intro h0
      rw [if_neg (by omega)]
    · intro hpos
      rw [if_pos hpos]

/-- C6 amended witness: the definition evaluated on the concrete run on
dfRun, where one winning trade out of one yields win_rate 100. -/
theorem win_rate_definition_witness :
    ((runResults.total_trades = 0 → runResults.win_rate = 0) ∧
     (0 < runResults.total_trades →
       runResults.win_rate = (runResults.winning_trades : ℚ) / (runResults.total_trades : ℚ) * 100)) ∧
    runResults.win_rate = 100 :=
  ⟨win_rate_definition stdZero dfRun 10000 30 runResults dfRun_result, rfl⟩

/-- C7.  Bollinger definedness and ordering: whenever the calculator
returns rows (any positive period; the deviation multiplier K
nonnegative, and the sample standard deviation nonnegative as the real
one is), every row before index N - 1 is fully undefined (the none
sentinel, never silently zero), and at every index where the three
cells are defined the middle band is the mean of the window of the
last N closes and lower <= middle <= upper holds. -/
theorem bollinger_bands_defined_ordering (stdFn : List ℚ → ℚ) (df : List Candle)
    (N : ℕ) (K : ℚ) (rows : List BBRow)
    (hK : 0 ≤ K) (hstd : ∀ w, 0 ≤ stdFn w)
    (hrows : calculate_bollinger_bands stdFn df N K = some rows)
    (i : ℕ) (hi : i < rows.length) :
    (i + 1 < N → rowGet rows i = ⟨none, none, none⟩) ∧
    (∀ m u l, (rowGet rows i).BB_MIDDLE = some m →
      (rowGet rows i).BB_UPPER = some u →
      (rowGet rows i).BB_LOWER = some l →
      m = listMean (rollWindow (df.map Candle.close) N i) ∧
      (rollWindow (df.map Candle.close) N i).length = N ∧
      l ≤ m ∧ m ≤ u) := by
  unfold calculate_bollinger_bands at hrows
  by_cases hN : N = 0
  · rw [if_pos hN] at hrows
    exact absurd hrows (by simp)
  · rw [if_neg hN] at hrows
    have hr2 := Option.some.inj hrows
    have hlen : rows.length = df.length := by
      rw [← hr2, List.length_map, List.length_range]
    have hidf : i < df.length := hlen ▸ hi
    have hget : rowGet rows i = bbRowAt stdFn (df.map Candle.close) N K i := by
      rw [← hr2, rowGet_map_range _ _ _ hidf]
    constructor
    · intro hiN
      rw [hget]
      unfold bbRowAt
      rw [if_pos hiN, if_pos (Or.inl hiN)]
    · intro m u l hm hu hl
      rw [hget] at hm hu hl
      unfold bbRowAt at hm hu hl
      by_cases hiN : i + 1 < N
      · rw [if_pos hiN] at hm
        exact absurd hm (by simp)
      · rw [if_neg hiN] at hm hu hl
        by_cases hN2 : N < 2
        · rw [if_pos (Or.inr hN2)] at hu
          exact absurd hu (by simp)
        · rw [if_neg (by tauto : ¬ (i + 1 < N ∨ N < 2))] at hu hl
          simp only [Option.some.injEq] at hm hu hl
          have hwlen : (rollWindow (df.map Candle.close) N i).length = N := by
            unfold rollWindow
            rw [List.length_drop, List.length_take, List.length_map]
            omega
          have hKs : 0 ≤ K * stdFn (rollWindow (df.map Candle.close) N i) :=
            mul_nonneg hK (hstd _)
          refine ⟨hm.symm, hwlen, ?_, ?_⟩
          · rw [← hl, ← hm]
            linarith
          · rw [← hu, ← hm]
            linarith

/-- C7 witness: the ordering instantiated on dfRun with the default
parameters (N = 20, K = 2) at index 25, where all three cells are
defined and equal to 100. -/
theorem bollinger_bands_defined_ordering_witness :
    (100 : ℚ) = listMean (rollWindow (dfRun.map Candle.close) 20 25) ∧
    (rollWindow (dfRun.map Candle.close) 20 25).length = 20 ∧
    (100 : ℚ) ≤ 100 ∧ (100 : ℚ) ≤ 100 :=
  (bollinger_bands_defined_ordering stdZero dfRun 20 2 (bbRows stdZero dfRun)
    (by norm_num) (fun w => le_refl 0) (calculate_bollinger_bands_twenty stdZero dfRun)
    25 (by with_unfolding_all decide)).2 100 100 100
    (by with_unfolding_all decide) (by with_unfolding_all decide)
    (by with_unfolding_all decide)

/-- A two-candle frame used for the period-validation analysis. -/
def dfPair : List Candle := [⟨0, 1, 1, 1, 1⟩, ⟨1, 2, 2, 2, 2⟩]

/-- C8 counterexample: with period N = 1 < 2 the calculator does NOT
fail: it returns a band frame (middle defined everywhere, upper and
lower undefined because a one-observation sample standard deviation is
undefined).  There is no N >= 2 input validation in the code. -/
theorem bollinger_input_validation_counterexample :
    calculate_bollinger_bands stdZero dfPair 1 2 =
      some [⟨some 1, none, none⟩, ⟨some 2, none, none⟩] ∧
    calculate_bollinger_bands stdZero dfPair 1 2 ≠ none := by
  constructor
  · with_unfolding_all decide
  · with_unfolding_all decide

/-- C8 amended.  The calculator accepts every positive period without
any N >= 2 validation (only a nonpositive rolling window is rejected,
by the dataframe library); at N = 1 it still returns rows, in which the
upper and lower cells are undefined at every index. -/
theorem bollinger_no_period_validation (stdFn : List ℚ → ℚ) (df : List Candle)
    (N : ℕ) (K : ℚ) (hN : 1 ≤ N) :
    (calculate_bollinger_bands stdFn df N K).isSome = true ∧
    (∀ rows, calculate_bollinger_bands stdFn df 1 K = some rows →
      ∀ i, (rowGet rows i).BB_UPPER = none ∧ (rowGet rows i).BB_LOWER = none) := by
  constructor
  · unfold calculate_bollinger_bands
    rw [if_neg (by omega)]
    rfl
  · intro rows hrows i
    unfold calculate_bollinger_bands at hrows
    rw [if_neg (by omega)] at hrows
    have hr2 := Option.some.inj hrows
    by_cases hi : i < df.length
    · rw [← hr2, rowGet_map_range _ _ _ hi]
      unfold bbRowAt
      rw [if_neg (by omega : ¬ i + 1 < 1), if_pos (Or.inr (by omega : (1 : ℕ) < 2))]
      exact ⟨rfl, rfl⟩
    · have hlen : rows.length ≤ i := by
        rw [← hr2, List.length_map, List.length_range]
        omega
      rw [rowGet, List.getD_eq_default _ _ hlen]
      exact ⟨rfl, rfl⟩

/-- C8 amended witness: N = 1 on the concrete frame dfPair is accepted
and its rows carry no defined upper or lower cell. -/
theorem bollinger_no_period_validation_witness :
    1 ≤ 1 ∧
    ((calculate_bollinger_bands stdZero dfPair 1 2).isSome = true ∧
     (∀ rows, calculate_bollinger_bands stdZero dfPair 1 2 = some rows →
       ∀ i, (rowGet rows i).BB_UPPER = none ∧ (rowGet rows i).BB_LOWER = none)) :=
  ⟨le_refl 1, bollinger_no_period_validation stdZero dfPair 1 2 (le_refl 1)⟩

/-- C10.  Heikin-Ashi envelope invariant: every row produced by
calculate_heikin_ashi is a well-formed candle: its HA_HIGH dominates
its own HA_OPEN and HA_CLOSE and the raw high, and its HA_LOW is below
its own HA_OPEN and HA_CLOSE and the raw low, so low <= open, close
<= high is preserved for every element of every input frame. -/
theorem heikin_ashi_envelope (df : List Candle) (i : ℕ) (h : i < df.length) :
    (rowGet (calculate_heikin_ashi df) i).HA_LOW ≤
      (rowGet (calculate_heikin_ashi df) i).HA_OPEN ∧
    (rowGet (calculate_heikin_ashi df) i).HA_LOW ≤
      (rowGet (calculate_heikin_ashi df) i).HA_CLOSE ∧
    (rowGet (calculate_heikin_ashi df) i).HA_LOW ≤ (rowGet df i).low ∧
    (rowGet (calculate_heikin_ashi df) i).HA_OPEN ≤
      (rowGet (calculate_heikin_ashi df) i).HA_HIGH ∧
    (rowGet (calculate_heikin_ashi df) i).HA_CLOSE ≤
      (rowGet (calculate_heikin_ashi df) i).HA_HIGH ∧
    (rowGet df i).high ≤ (rowGet (calculate_heikin_ashi df) i).HA_HIGH := by
  obtain ⟨hh, hl⟩ := calculate_heikin_ashi_high_low df i h
  refine ⟨?_, ?_, ?_, ?_, ?_, ?_⟩
  · rw [hl]
    exact le_trans (min_le_right _ _) (min_le_left _ _)
  · rw [hl]
    exact le_trans (min_le_right _ _) (min_le_right _ _)
  · rw [hl]
    exact min_le_left _ _
  · rw [hh]
    exact le_trans (le_max_left _ _) (le_max_right _ _)
  · rw [hh]
    exact le_trans (le_max_right _ _) (le_max_right _ _)
  · rw [hh]
    exact le_max_left _ _

/-- C10 witness: the envelope instantiated on dfRun at index 33. -/
theorem heikin_ashi_envelope_witness :
    33 < dfRun.length ∧
    ((rowGet (calculate_heikin_ashi dfRun) 33).HA_LOW ≤
       (rowGet (calculate_heikin_ashi dfRun) 33).HA_OPEN ∧
     (rowGet (calculate_heikin_ashi dfRun) 33).HA_LOW ≤
       (rowGet (calculate_heikin_ashi dfRun) 33).HA_CLOSE ∧
     (rowGet (calculate_heikin_ashi dfRun) 33).HA_LOW ≤ (rowGet dfRun 33).low ∧
     (rowGet (calculate_heikin_ashi dfRun) 33).HA_OPEN ≤
       (rowGet (calculate_heikin_ashi dfRun) 33).HA_HIGH ∧
     (rowGet (calculate_heikin_ashi dfRun) 33).HA_CLOSE ≤
       (rowGet (calculate_heikin_ashi dfRun) 33).HA_HIGH ∧
     (rowGet dfRun 33).high ≤ (rowGet (calculate_heikin_ashi dfRun) 33).HA_HIGH) :=
  ⟨by with_unfolding_all decide, heikin_ashi_envelope dfRun 33 (by with_unfolding_all decide)⟩

/-- C9.  Body-percentage totality and bounds: on every row produced by
calculate_heikin_ashi, calculate_ha_body_size_percentage lies in
[0, 100]; a zero-range row returns exactly 0 through the explicit guard
(the division is reached only when the range is nonzero, so no NaN or
fault can arise). -/
theorem body_pct_bounds (df : List Candle) (i : ℕ) (h : i < df.length) :
    0 ≤ calculate_ha_body_size_percentage (rowGet (calculate_heikin_ashi df) i) ∧
    calculate_ha_body_size_percentage (rowGet (calculate_heikin_ashi df) i) ≤ 100 ∧
    ((rowGet (calculate_heikin_ashi df) i).HA_HIGH =
        (rowGet (calculate_heikin_ashi df) i).HA_LOW →
      calculate_ha_body_size_percentage (rowGet (calculate_heikin_ashi df) i) = 0) := by
  obtain ⟨hh, hl⟩ := calculate_heikin_ashi_high_low df i h
  have hlo : (rowGet (calculate_heikin_ashi df) i).HA_LOW ≤
      (rowGet (calculate_heikin_ashi df) i).HA_OPEN := by
    rw [hl]
    exact le_trans (min_le_right _ _) (min_le_left _ _)
  have hlc : (rowGet (calculate_heikin_ashi df) i).HA_LOW ≤
      (rowGet (calculate_heikin_ashi df) i).HA_CLOSE := by
    rw [hl]
    exact le_trans (min_le_right _ _) (min_le_right _ _)
  have hoh : (rowGet (calculate_heikin_ashi df) i).HA_OPEN ≤
      (rowGet (calculate_heikin_ashi df) i).HA_HIGH := by
    rw [hh]
    exact le_trans (le_max_left _ _) (le_max_right _ _)
  have hch : (rowGet (calculate_heikin_ashi df) i).HA_CLOSE ≤
      (rowGet (calculate_heikin_ashi df) i).HA_HIGH := by
    rw [hh]
    exact le_trans (le_max_right _ _) (le_max_right _ _)
  set r := rowGet (calculate_heikin_ashi df) i with hr
  simp only [calculate_ha_body_size_percentage]
  by_cases h0 : r.HA_HIGH - r.HA_LOW = 0
  · rw [if_pos h0]
    norm_num
  · rw [if_neg h0]
    have hrange : 0 < r.HA_HIGH - r.HA_LOW := by
      rcases lt_or_eq_of_le (by linarith : (0 : ℚ) ≤ r.HA_HIGH - r.HA_LOW) with h1 | h1
      · exact h1
      · exact absurd h1.symm h0
    have hbody : |r.HA_CLOSE - r.HA_OPEN| ≤ r.HA_HIGH - r.HA_LOW := by
      rw [abs_sub_le_iff]
      constructor <;> linarith
    have hq : |r.HA_CLOSE - r.HA_OPEN| / (r.HA_HIGH - r.HA_LOW) ≤ 1 :=
      (div_le_one hrange).mpr hbody
    have hq0 : 0 ≤ |r.HA_CLOSE - r.HA_OPEN| / (r.HA_HIGH - r.HA_LOW) :=
      div_nonneg (abs_nonneg _) (le_of_lt hrange)
    refine ⟨by linarith, by linarith, ?_⟩
    intro he
    exact absurd (by rw [he]; ring) h0

/-- C9 witness: the bounds instantiated on dfRun at index 33 (the
strong red candle with a 9/13 body). -/
theorem body_pct_bounds_witness :
    33 < dfRun.length ∧
    (0 ≤ calculate_ha_body_size_percentage (rowGet (calculate_heikin_ashi dfRun) 33) ∧
     calculate_ha_body_size_percentage (rowGet (calculate_heikin_ashi dfRun) 33) ≤ 100 ∧
     ((rowGet (calculate_heikin_ashi dfRun) 33).HA_HIGH =
         (rowGet (calculate_heikin_ashi dfRun) 33).HA_LOW →
       calculate_ha_body_size_percentage (rowGet (calculate_heikin_ashi dfRun) 33) = 0)) :=
  ⟨by with_unfolding_all decide, body_pct_bounds dfRun 33 (by with_unfolding_all decide)⟩
